import Mathlib

/-!
Verification of the EC2 instances Flask API (`EC2Instances.py`).

The development shallowly embeds the request pipeline of the source file:
query-parameter parsing (Python `int()`), the three validators, the
normalization of raw EC2 descriptions into instance records, the optional
stable sort by a record field (Python `list.sort(key=...)`), and the
1-based page slicing done with Python list slices.  External collaborators
(boto3, Flask routing, flask-caching) are parametrized: the set of valid
regions and the upstream `describe_instances` response are inputs of the
embedded functions, and `get_all_ec2_instances_in_region` is the function
whose memoized result is the cache snapshot.
-/

namespace EC2

/-! ### Python comparison semantics

Python compares strings lexicographically by code point, and lists
lexicographically by their elements.  `pyLexLt ltE` is the strict
lexicographic comparison of lists given the strict comparison `ltE` of
elements (two elements are treated as equal when neither is below the
other, which for the total element orders used here is equality). -/

def pyLexLt (ltE : α → α → Bool) : List α → List α → Bool
  | [], [] => false
  | [], _ :: _ => true
  | _ :: _, [] => false
  | x :: xs, y :: ys =>
    if ltE x y then true
    else if ltE y x then false
    else pyLexLt ltE xs ys

/-- Strict comparison of characters by code point, as Python compares
the characters of a string. -/
def charLtB (a b : Char) : Bool := decide (a < b)

/-- Python `a < b` on strings: code-point lexicographic order. -/
def pyStrLt (a b : String) : Bool := pyLexLt charLtB a.data b.data

/-- The non-strict order in which Python `list.sort` arranges string keys
ascending: `a` need not go after `b` exactly when `not (b < a)`. -/
def strLe (a b : String) : Bool := !(pyStrLt b a)

/-- Python `a < b` on lists of strings (the type of the `PrivateIPs`
field): lexicographic over the string order. -/
def pyListLt (a b : List String) : Bool := pyLexLt pyStrLt a b

/-- Non-strict ascending order on lists of strings, `not (b < a)`. -/
def listStrLe (a b : List String) : Bool := !(pyListLt b a)

/-! Order lemmas for `pyLexLt`, generic in a strict total element order. -/

theorem pyLexLt_irrefl (ltE : α → α → Bool) (hirr : ∀ x, ltE x x = false) :
    ∀ a, pyLexLt ltE a a = false := by
  intro a
  induction a with
  | nil => rfl
  | cons x xs ih => simp [pyLexLt, hirr x, ih]

theorem pyLexLt_asymm (ltE : α → α → Bool)
    (hasym : ∀ x y, ltE x y = true → ltE y x = false) :
    ∀ a b, pyLexLt ltE a b = true → pyLexLt ltE b a = false := by
  intro a
  induction a with
  | nil => intro b h; cases b <;> simp_all [pyLexLt]
  | cons x xs ih =>
    intro b h
    cases b with
    | nil => simp [pyLexLt] at h
    | cons y ys =>
      by_cases hxy : ltE x y = true
      · simp [pyLexLt, hasym x y hxy, hxy]
      · by_cases hyx : ltE y x = true
        · simp [pyLexLt, hxy, hyx] at h
        · simp only [pyLexLt, hxy, hyx, if_false, Bool.false_eq_true] at h ⊢
          exact ih ys h

theorem pyLexLt_eq_of_incomp (ltE : α → α → Bool)
    (heq : ∀ x y, ltE x y = false → ltE y x = false → x = y) :
    ∀ a b, pyLexLt ltE a b = false → pyLexLt ltE b a = false → a = b := by
  intro a
  induction a with
  | nil => intro b h _; cases b <;> simp_all [pyLexLt]
  | cons x xs ih =>
    intro b h h'
    cases b with
    | nil => simp [pyLexLt] at h'
    | cons y ys =>
      by_cases hxy : ltE x y = true
      · simp [pyLexLt, hxy] at h
      · by_cases hyx : ltE y x = true
        · simp [pyLexLt, hyx, hxy] at h'
        · simp only [Bool.not_eq_true] at hxy hyx
          have hx := heq x y hxy hyx
          subst hx
          simp only [pyLexLt, hxy, hyx, if_false, Bool.false_eq_true] at h h'
          rw [ih ys h h']

theorem pyLexLt_trans (ltE : α → α → Bool)
    (htr : ∀ x y z, ltE x y = true → ltE y z = true → ltE x z = true)
    (heq : ∀ x y, ltE x y = false → ltE y x = false → x = y) :
    ∀ a b c, pyLexLt ltE a b = true → pyLexLt ltE b c = true →
      pyLexLt ltE a c = true := by
  intro a
  induction a with
  | nil =>
    intro b c hab hbc
    cases b with
    | nil => simp [pyLexLt] at hab
    | cons y ys => cases c with
      | nil => simp [pyLexLt] at hbc
      | cons z zs => simp [pyLexLt]
  | cons x xs ih =>
    intro b c hab hbc
    cases b with
    | nil => simp [pyLexLt] at hab
    | cons y ys =>
      cases c with
      | nil => simp [pyLexLt] at hbc
      | cons z zs =>
        by_cases hxy : ltE x y = true
        · by_cases hyz : ltE y z = true
          · simp [pyLexLt, htr x y z hxy hyz]
          · by_cases hzy : ltE z y = true
            · simp [pyLexLt, hxy, hyz, hzy] at hbc
            · simp only [Bool.not_eq_true] at hyz hzy
              have := heq y z hyz hzy
              subst this
              simp [pyLexLt, hxy]
        · by_cases hyx : ltE y x = true
          · simp [pyLexLt, hxy, hyx] at hab
          · simp only [Bool.not_eq_true] at hxy hyx
            have := heq x y hxy hyx
            subst this
            simp only [pyLexLt, hxy, hyx, if_false, Bool.false_eq_true] at hab
            by_cases hyz : ltE x z = true
            · simp [pyLexLt, hyz]
            · by_cases hzy : ltE z x = true
              · simp [pyLexLt, hyz, hzy] at hbc
              · simp only [pyLexLt, hyz, hzy, if_false, Bool.false_eq_true] at hbc ⊢
                exact ih ys zs hab hbc

/-! Instantiation of the order lemmas for characters and strings. -/

theorem charLtB_irrefl (x : Char) : charLtB x x = false := by
  simp [charLtB]

theorem charLtB_asymm (x y : Char) (h : charLtB x y = true) : charLtB y x = false := by
  simp only [charLtB, decide_eq_true_eq, decide_eq_false_iff_not] at h ⊢
  exact lt_asymm h

theorem charLtB_trans (x y z : Char) (h1 : charLtB x y = true)
    (h2 : charLtB y z = true) : charLtB x z = true := by
  simp only [charLtB, decide_eq_true_eq] at h1 h2 ⊢
  exact lt_trans h1 h2

theorem charLtB_eq_of_incomp (x y : Char) (h1 : charLtB x y = false)
    (h2 : charLtB y x = false) : x = y := by
  simp only [charLtB, decide_eq_false_iff_not] at h1 h2
  exact le_antisymm (not_lt.mp h2) (not_lt.mp h1)

theorem pyStrLt_irrefl (s : String) : pyStrLt s s = false :=
  pyLexLt_irrefl charLtB charLtB_irrefl s.data

theorem pyStrLt_asymm (a b : String) (h : pyStrLt a b = true) : pyStrLt b a = false :=
  pyLexLt_asymm charLtB charLtB_asymm a.data b.data h

theorem pyStrLt_trans (a b c : String) (h1 : pyStrLt a b = true)
    (h2 : pyStrLt b c = true) : pyStrLt a c = true :=
  pyLexLt_trans charLtB charLtB_trans charLtB_eq_of_incomp a.data b.data c.data h1 h2

theorem pyStrLt_eq_of_incomp (a b : String) (h1 : pyStrLt a b = false)
    (h2 : pyStrLt b a = false) : a = b := by
  have hd := pyLexLt_eq_of_incomp charLtB charLtB_eq_of_incomp a.data b.data h1 h2
  cases a; cases b; simp_all

theorem pyListLt_irrefl (l : List String) : pyListLt l l = false :=
  pyLexLt_irrefl pyStrLt pyStrLt_irrefl l

theorem pyListLt_asymm (a b : List String) (h : pyListLt a b = true) :
    pyListLt b a = false :=
  pyLexLt_asymm pyStrLt pyStrLt_asymm a b h

theorem pyListLt_trans (a b c : List String) (h1 : pyListLt a b = true)
    (h2 : pyListLt b c = true) : pyListLt a c = true :=
  pyLexLt_trans pyStrLt pyStrLt_trans pyStrLt_eq_of_incomp a b c h1 h2

theorem pyListLt_eq_of_incomp (a b : List String) (h1 : pyListLt a b = false)
    (h2 : pyListLt b a = false) : a = b :=
  pyLexLt_eq_of_incomp pyStrLt pyStrLt_eq_of_incomp a b h1 h2

/-! Derived facts about the non-strict orders used by the sort. -/

theorem strLe_total (a b : String) : strLe a b = true ∨ strLe b a = true := by
  by_cases h : pyStrLt b a = true
  · right; simp [strLe, pyStrLt_asymm b a h]
  · left; simp only [strLe, Bool.not_eq_true] at h ⊢; simp [h]

theorem strLe_trans (a b c : String) (h1 : strLe a b = true) (h2 : strLe b c = true) :
    strLe a c = true := by
  simp only [strLe, Bool.not_eq_true', Bool.not_eq_true] at h1 h2 ⊢
  by_contra hca
  simp only [Bool.not_eq_false] at hca
  by_cases hab : pyStrLt a b = true
  · exact absurd (pyStrLt_trans c a b hca hab) (by simp [h2])
  · have := pyStrLt_eq_of_incomp a b (by simpa using hab) h1
    subst this
    simp [hca] at h2

theorem strLe_refl (a : String) : strLe a a = true := by
  simp [strLe, pyStrLt_irrefl]

theorem listStrLe_total (a b : List String) :
    listStrLe a b = true ∨ listStrLe b a = true := by
  by_cases h : pyListLt b a = true
  · right; simp [listStrLe, pyListLt_asymm b a h]
  · left; simp only [listStrLe, Bool.not_eq_true] at h ⊢; simp [h]

theorem listStrLe_trans (a b c : List String) (h1 : listStrLe a b = true)
    (h2 : listStrLe b c = true) : listStrLe a c = true := by
  simp only [listStrLe, Bool.not_eq_true', Bool.not_eq_true] at h1 h2 ⊢
  by_contra hca
  simp only [Bool.not_eq_false] at hca
  by_cases hab : pyListLt a b = true
  · exact absurd (pyListLt_trans c a b hca hab) (by simp [h2])
  · have := pyListLt_eq_of_incomp a b (by simpa using hab) h1
    subst this
    simp [hca] at h2

theorem listStrLe_refl (a : List String) : listStrLe a a = true := by
  simp [listStrLe, pyListLt_irrefl]

/-! ### Constants of `EC2Instances.py` -/

def instance_tags : List String :=
  ["Name", "ID", "Type", "State", "AvailabilityZone", "PublicIP", "PrivateIPs"]

def INVALID_REGION_MESSAGE : String := "Invalid region name"

/-- In the source the attribute list is joined from a Python set, whose
iteration order is unspecified; the declaration order is used here. -/
def INVALID_SORT_BY_MESSAGE : String :=
  "Invalid sort by attribute.\nValid attributes to short by are:" ++
    String.intercalate ", " instance_tags

def INVALID_PAGE_SIZE : String := "Invalid page size.\nPage size must be positive numbers"

/-- Declared in the source but never used by any handler or validator. -/
def INVALID_PAGE_NUM : String := "Invalid page numbers."

/-- A validator failure: `jsonify(\x7b'error': text\x7d)` together with the
HTTP status code 400 returned by `http_error`. -/
structure ErrorResponse where
  error : String
  status : Nat
  deriving DecidableEq, Repr

def http_error (text : String) : ErrorResponse := { error := text, status := 400 }

/-! ### Validators -/

/-- Python truthiness of an optional string argument: `None` and the empty
string are falsy. -/
def truthyStr : Option String → Bool
  | none => false
  | some s => s != ""

/-- Python membership `x in l` where `x` is an optional string (a missing
query parameter is `None`, which is never a member). -/
def optMem (x : Option String) (l : List String) : Bool :=
  match x with
  | none => false
  | some s => l.contains s

def is_valid_sort_by (sort_by : Option String) : Option ErrorResponse :=
  if !(optMem sort_by instance_tags) && truthyStr sort_by then
    some (http_error INVALID_SORT_BY_MESSAGE)
  else none

def is_valid_page_size (page_size : Int) : Option ErrorResponse :=
  if page_size ≤ 0 then some (http_error INVALID_PAGE_SIZE) else none

/-- The set of region names is fetched from the provider
(`describe_regions`); it is a parameter of the embedding. -/
def is_valid_region (valid_regions : List String) (region_name : Option String) :
    Option ErrorResponse :=
  if optMem region_name valid_regions then none
  else some (http_error INVALID_REGION_MESSAGE)

def check_parameters_validation (valid_regions : List String) (region_name : Option String)
    (sort_by : Option String) (page_size : Int) : Option ErrorResponse :=
  match is_valid_region valid_regions region_name with
  | some e => some e
  | none =>
    match is_valid_sort_by sort_by with
    | some e => some e
    | none => is_valid_page_size page_size

/-! ### Raw upstream data and record normalization -/

structure RawTag where
  Key : String
  Value : String
  deriving DecidableEq, Repr

structure RawNetworkInterface where
  PrivateIpAddress : String
  deriving DecidableEq, Repr

/-- One entry of a reservation's `Instances` list as returned by
`describe_instances`.  `Tags` is optional because the key is absent for an
untagged instance; `PublicIpAddress` is optional likewise.  `StateName`
models `instance['State']['Name']`. -/
structure RawInstance where
  Tags : Option (List RawTag)
  InstanceId : String
  InstanceType : String
  StateName : String
  AvailabilityZone : String
  PublicIpAddress : Option String
  NetworkInterfaces : List RawNetworkInterface
  deriving DecidableEq, Repr

structure Reservation where
  Instances : List RawInstance
  deriving DecidableEq, Repr

/-- The normalized record built in the loop body; `Type'` models the
`Type` key.  Every field of the structure is always present. -/
structure InstanceRecord where
  Name : String
  ID : String
  Type' : String
  State : String
  AvailabilityZone : String
  PublicIP : String
  PrivateIPs : List String
  deriving DecidableEq, Repr

/-- The `instance_details` dictionary built for one raw instance.
`instance.get('Tags')[0]['Value']` raises (`TypeError` on a missing
`Tags` key, `IndexError` on an empty tag list), which is `none` here. -/
def instanceDetails (inst : RawInstance) : Option InstanceRecord :=
  match inst.Tags with
  | none => none
  | some [] => none
  | some (t :: _) =>
    some { Name := t.Value
           ID := inst.InstanceId
           Type' := inst.InstanceType
           State := inst.StateName
           AvailabilityZone := inst.AvailabilityZone
           PublicIP := inst.PublicIpAddress.getD "N/A"
           PrivateIPs := inst.NetworkInterfaces.map (fun ni => ni.PrivateIpAddress) }

/-- The normalization loop: records are appended in source order and the
first failing record aborts the whole call. -/
def normalizeAll : List RawInstance → Option (List InstanceRecord)
  | [] => some []
  | r :: rs =>
    match instanceDetails r, normalizeAll rs with
    | some i, some is => some (i :: is)
    | _, _ => none

/-! ### Sorting by a record field -/

inductive SortKey where
  | name | id | typ | state | availabilityZone | publicIP | privateIPs
  deriving DecidableEq, Repr

/-- Dictionary lookup `x[sort_by]` resolved to a record accessor; `none`
models the `KeyError` for a string that is not one of the seven keys. -/
def keyOfString (s : String) : Option SortKey :=
  if s = "Name" then some .name
  else if s = "ID" then some .id
  else if s = "Type" then some .typ
  else if s = "State" then some .state
  else if s = "AvailabilityZone" then some .availabilityZone
  else if s = "PublicIP" then some .publicIP
  else if s = "PrivateIPs" then some .privateIPs
  else none

/-- The value of a record at a sort key (the Python sort key function). -/
inductive FieldVal where
  | str (s : String)
  | strList (l : List String)
  deriving DecidableEq, Repr

def keyVal : SortKey → InstanceRecord → FieldVal
  | .name, x => .str x.Name
  | .id, x => .str x.ID
  | .typ, x => .str x.Type'
  | .state, x => .str x.State
  | .availabilityZone, x => .str x.AvailabilityZone
  | .publicIP, x => .str x.PublicIP
  | .privateIPs, x => .strList x.PrivateIPs

/-- The non-strict order on records that Python's ascending stable sort
realizes for a given key: string comparison for the six string fields,
element-wise (lexicographic) comparison for `PrivateIPs`. -/
def fieldLe : SortKey → InstanceRecord → InstanceRecord → Bool
  | .name, a, b => strLe a.Name b.Name
  | .id, a, b => strLe a.ID b.ID
  | .typ, a, b => strLe a.Type' b.Type'
  | .state, a, b => strLe a.State b.State
  | .availabilityZone, a, b => strLe a.AvailabilityZone b.AvailabilityZone
  | .publicIP, a, b => strLe a.PublicIP b.PublicIP
  | .privateIPs, a, b => listStrLe a.PrivateIPs b.PrivateIPs

def keyRel (k : SortKey) : InstanceRecord → InstanceRecord → Prop :=
  fun a b => fieldLe k a b = true

instance (k : SortKey) : DecidableRel (keyRel k) :=
  fun a b => inferInstanceAs (Decidable (fieldLe k a b = true))

/-- `instances.sort(key=lambda x: x[sort_by])`: Python `list.sort` is a
stable ascending sort, embedded as insertion sort on `keyRel`. -/
def sortByKey (k : SortKey) (l : List InstanceRecord) : List InstanceRecord :=
  l.insertionSort (keyRel k)

/-- `get_all_ec2_instances_in_region`, with the upstream
`describe_instances()['Reservations']` response as a parameter.  Its
memoized return value is the cache snapshot for `(region, sort_by)`.
A `KeyError` from an unknown sort key can only occur when the built list
is non-empty, because `list.sort` never calls the key function on an
empty list. -/
def get_all_ec2_instances_in_region (response : List Reservation)
    (sort_by : Option String) : Option (List InstanceRecord) :=
  match normalizeAll (response.flatMap (fun r => r.Instances)) with
  | none => none
  | some instances =>
    if truthyStr sort_by then
      match keyOfString (sort_by.getD "") with
      | some k => some (sortByKey k instances)
      | none => if instances.isEmpty then some instances else none
    else some instances

/-! ### Python `int()` on a query-string value -/

/-- Python `str.strip` of surrounding whitespace. -/
def stripChars (cs : List Char) : List Char :=
  ((cs.dropWhile Char.isWhitespace).reverse.dropWhile Char.isWhitespace).reverse

def digitsToNat (ds : List Char) : Nat :=
  ds.foldl (fun n c => n * 10 + (c.toNat - 48)) 0

/-- After the first digit: digits, with single underscores allowed only
between digits (CPython's digit-grouping rule). -/
def validTail : List Char → Bool
  | [] => true
  | '_' :: c :: rest => c.isDigit && validTail rest
  | c :: rest => c.isDigit && validTail rest

def validDigitBody : List Char → Bool
  | [] => false
  | c :: rest => c.isDigit && validTail rest

def pyIntBody (cs : List Char) : Option Nat :=
  if validDigitBody cs then some (digitsToNat (cs.filter (fun c => c != '_'))) else none

/-- Python `int(s)` for a decimal string: optional surrounding whitespace,
optional sign, digits with underscore grouping; anything else raises
`ValueError`, which is `none` here. -/
def pyIntParse (s : String) : Option Int :=
  match stripChars s.data with
  | '+' :: rest => (pyIntBody rest).map (fun n => (n : Int))
  | '-' :: rest => (pyIntBody rest).map (fun n => -(n : Int))
  | rest => (pyIntBody rest).map (fun n => (n : Int))

/-- `int(request.args.get(name, dflt))`: the default is already an `int`,
so conversion only happens (and can only raise) when the parameter is
present. -/
def parseIntArg (arg : Option String) (dflt : Int) : Option Int :=
  match arg with
  | none => some dflt
  | some s => pyIntParse s

/-! ### Python list slicing -/

/-- Normalization of one slice index against a list length: negative
indices count from the end, then both ends are clipped to `[0, len]`. -/
def pyBound (len : Nat) (i : Int) : Nat :=
  if i < 0 then ((len : Int) + i).toNat else min i.toNat len

/-- Python `l[a:b]` (step 1). -/
def pySlice (l : List α) (a b : Int) : List α :=
  (l.drop (pyBound l.length a)).take (pyBound l.length b - pyBound l.length a)

/-- The paginator of the handler: `start_index = (page - 1) * page_size`,
`end_index = start_index + page_size`, then a Python slice. -/
def slice (items : List α) (page pageSize : Int) : List α :=
  pySlice items ((page - 1) * pageSize) ((page - 1) * pageSize + pageSize)

/-! ### The GET handler -/

/-- The four query parameters of `/get_ec2_instances`; a missing
parameter is `none`. -/
structure Request where
  region : Option String
  sort_by : Option String
  page : Option String
  page_size : Option String
  deriving DecidableEq, Repr

/-- The serialized body: a JSON array of records on success, or the
`jsonify(\x7b'error': message\x7d)` object of a validator failure. -/
inductive ResponseBody where
  | jsonList (items : List InstanceRecord)
  | jsonError (message : String)
  deriving DecidableEq, Repr

/-- What one request produces: an HTTP response with a status code, or an
exception that escapes the handler. -/
inductive HandlerOutcome where
  | response (status : Nat) (body : ResponseBody)
  | uncaughtException
  deriving DecidableEq, Repr

def HandlerOutcome.isHttpResponse : HandlerOutcome → Bool
  | .response _ _ => true
  | .uncaughtException => false

/-- The route handler `get_request_ec2_instances`: convert `page` and
`page_size` (both conversions run before any validation), validate
region → sortBy → pageSize, then fetch and slice.  A success returns the
dumped JSON list with Flask's default status 200. -/
def get_request_ec2_instances (valid_regions : List String)
    (response : List Reservation) (req : Request) : HandlerOutcome :=
  match parseIntArg req.page 1 with
  | none => .uncaughtException
  | some page =>
    match parseIntArg req.page_size 5 with
    | none => .uncaughtException
    | some page_size =>
      match check_parameters_validation valid_regions req.region req.sort_by page_size with
      | some e => .response e.status (.jsonError e.error)
      | none =>
        match get_all_ec2_instances_in_region response req.sort_by with
        | none => .uncaughtException
        | some instances =>
          let start_index := (page - 1) * page_size
          let end_index := start_index + page_size
          .response 200 (.jsonList (pySlice instances start_index end_index))

/-! ### Helper lemmas -/

theorem optMem_some_iff (s : String) (l : List String) : optMem (some s) l = true ↔ s ∈ l := by
  simp [optMem]

/-- A Python slice with a non-negative start and a non-negative width is a
drop followed by a take. -/
theorem pySlice_nonneg (l : List α) (s p : Int) (hs : 0 ≤ s) (hp : 0 ≤ p) :
    pySlice l s (s + p) = (l.drop s.toNat).take p.toNat := by
  unfold pySlice pyBound
  rw [if_neg (by omega), if_neg (by omega)]
  by_cases h1 : l.length ≤ s.toNat
  · rw [min_eq_right h1, List.drop_length, List.drop_eq_nil_of_le h1]
    simp
  · push_neg at h1
    rw [min_eq_left h1.le]
    by_cases h3 : (s + p).toNat ≤ l.length
    · rw [min_eq_left h3]
      congr 1
      omega
    · push_neg at h3
      rw [min_eq_right h3.le]
      rw [show l.length - s.toNat = (l.drop s.toNat).length by rw [List.length_drop],
        List.take_length]
      exact (List.take_of_length_le (by rw [List.length_drop]; omega)).symm

/-- The paginator slice at a 1-based page and positive page size. -/
theorem slice_eq_drop_take (l : List α) (page p : Int) (hpage : 1 ≤ page) (hp : 1 ≤ p) :
    slice l page p = (l.drop ((page - 1) * p).toNat).take p.toNat := by
  unfold slice
  exact pySlice_nonneg l _ p (mul_nonneg (by omega) (by omega)) (by omega)

/-- Page `i + 1` (`i : ℕ`) with page size `p` is the `i`-th chunk. -/
theorem slice_nat_chunk (l : List α) (i p : Nat) (hp : 1 ≤ p) :
    slice l ((i : Int) + 1) (p : Int) = (l.drop (i * p)).take p := by
  rw [slice_eq_drop_take l _ _ (by omega) (by exact_mod_cast hp)]
  have e1 : (((i : Int) + 1 - 1) * (p : Int)).toNat = i * p := by
    have h : ((i : Int) + 1 - 1) * (p : Int) = ((i * p : Nat) : Int) := by push_cast; ring
    omega
  have e2 : ((p : Nat) : Int).toNat = p := by omega
  rw [e1, e2]

theorem flatten_chunks (p : Nat) :
    ∀ (n : Nat) (l : List α), l.length ≤ n * p →
      ((List.range n).map (fun i => (l.drop (i * p)).take p)).flatten = l := by
  intro n
  induction n with
  | zero =>
    intro l hl
    simp only [Nat.zero_mul, Nat.le_zero] at hl
    simp [List.eq_nil_of_length_eq_zero hl]
  | succ n ih =>
    intro l hl
    rw [Nat.succ_mul] at hl
    rw [List.range_succ_eq_map, List.map_cons, List.map_map, List.flatten_cons,
      Nat.zero_mul, List.drop_zero]
    have hmap : (List.range n).map ((fun i => (l.drop (i * p)).take p) ∘ Nat.succ) =
        (List.range n).map (fun i => ((l.drop p).drop (i * p)).take p) := by
      refine List.map_congr_left ?_
      intro i _
      simp only [Function.comp]
      rw [List.drop_drop]
      congr 2
      rw [Nat.succ_mul]
      omega
    rw [hmap, ih (l.drop p) (by rw [List.length_drop]; omega)]
    exact List.take_append_drop p l

/-! ### Claims -/

/-- C2: Pagination completeness: for every list `L` and every fixed
`pageSize` `p ≥ 1`, concatenating `slice(L, 1, p)`, `slice(L, 2, p)`, ...
until pages are exhausted reconstructs `L` exactly (and once the pages
are exhausted — `kExh * p` reaches the length — every further page is
empty, so the enumeration terminates with the final page possibly
shorter than `p`). -/
theorem pagination_completeness (L : List α) (p n kExh : Nat)
    (hp : 1 ≤ p) (hn : L.length ≤ n * p) (hk : L.length ≤ kExh * p) :
    ((List.range n).map (fun i : Nat => slice L ((i : Int) + 1) (p : Int))).flatten = L
    ∧ slice L ((kExh : Int) + 1) (p : Int) = [] := by
  constructor
  · have hmap : (List.range n).map (fun i : Nat => slice L ((i : Int) + 1) (p : Int)) =
        (List.range n).map (fun i => (L.drop (i * p)).take p) :=
      List.map_congr_left (fun i _ => slice_nat_chunk L i p hp)
    rw [hmap]
    exact flatten_chunks p n L hn
  · rw [slice_nat_chunk L kExh p hp, List.drop_eq_nil_of_le hk]
    simp

theorem pagination_completeness_witness :
    ((List.range 2).map (fun i : Nat => slice ([3, 1, 4] : List Nat) ((i : Int) + 1) (2 : Int))).flatten
        = [3, 1, 4]
    ∧ slice ([3, 1, 4] : List Nat) ((5 : Nat) + 1) (2 : Int) = [] :=
  pagination_completeness [3, 1, 4] 2 2 5 (by decide) (by decide) (by decide)

/-- C3: Paginator slice semantics: for `page ≥ 1` and `pageSize ≥ 1` the
slice equals the sub-sequence starting at `(page-1)*pageSize` of width
`pageSize` clipped to the list bounds; when the start index reaches the
length the result is the empty list (not an error), and when the end
index exceeds the length the result is the remaining tail. -/
theorem slice_semantics (items itemsB itemsC : List α) (page p : Int)
    (hpage : 1 ≤ page) (hp : 1 ≤ p)
    (hB : itemsB.length ≤ ((page - 1) * p).toNat)
    (hC : (itemsC.length : Int) < (page - 1) * p + p) :
    slice items page p = (items.drop ((page - 1) * p).toNat).take p.toNat
    ∧ slice itemsB page p = []
    ∧ slice itemsC page p = itemsC.drop ((page - 1) * p).toNat := by
  refine ⟨slice_eq_drop_take items page p hpage hp, ?_, ?_⟩
  · rw [slice_eq_drop_take itemsB page p hpage hp, List.drop_eq_nil_of_le hB]
    simp
  · rw [slice_eq_drop_take itemsC page p hpage hp]
    apply List.take_of_length_le
    rw [List.length_drop]
    have hs : 0 ≤ (page - 1) * p := mul_nonneg (by omega) (by omega)
    omega

theorem slice_semantics_witness :
    slice ([10, 20, 30] : List Nat) 2 2 = (([10, 20, 30] : List Nat).drop
        (((2 : Int) - 1) * 2).toNat).take (2 : Int).toNat
    ∧ slice ([10] : List Nat) 2 2 = []
    ∧ slice ([10, 20, 30] : List Nat) 2 2 = ([10, 20, 30] : List Nat).drop
        (((2 : Int) - 1) * 2).toNat :=
  slice_semantics [10, 20, 30] [10] [10, 20, 30] 2 2 (by decide) (by decide)
    (by decide) (by decide)

/-! ### Order facts about `keyRel` and stability of the sort -/

instance (k : SortKey) : IsTotal InstanceRecord (keyRel k) := by
  constructor
  intro a b
  cases k <;> simp only [keyRel, fieldLe] <;>
    first
      | exact strLe_total _ _
      | exact listStrLe_total _ _

instance (k : SortKey) : IsTrans InstanceRecord (keyRel k) := by
  constructor
  intro a b c hab hbc
  cases k <;> simp only [keyRel, fieldLe] at hab hbc ⊢ <;>
    first
      | exact strLe_trans _ _ _ hab hbc
      | exact listStrLe_trans _ _ _ hab hbc

theorem keyRel_of_keyVal_eq (k : SortKey) (a b : InstanceRecord)
    (h : keyVal k a = keyVal k b) : keyRel k a b := by
  cases k <;>
    simp only [keyVal, FieldVal.str.injEq, FieldVal.strList.injEq] at h <;>
    simp only [keyRel, fieldLe, h] <;>
    first
      | exact strLe_refl _
      | exact listStrLe_refl _

/-- Stability of the embedded sort, in filter form: the elements whose
sort key equals any one value `v` keep their original relative order. -/
theorem sortByKey_stable_filter (k : SortKey) (l : List InstanceRecord) (v : FieldVal) :
    (sortByKey k l).filter (fun x => keyVal k x == v) =
      l.filter (fun x => keyVal k x == v) := by
  set p : InstanceRecord → Bool := fun x => keyVal k x == v with hp
  have hpair : (l.filter p).Pairwise (keyRel k) := by
    apply List.pairwise_of_forall_mem_list
    intro a ha b hb
    rw [List.mem_filter] at ha hb
    have ha2 : keyVal k a = v := by simpa [hp] using ha.2
    have hb2 : keyVal k b = v := by simpa [hp] using hb.2
    exact keyRel_of_keyVal_eq k a b (ha2.trans hb2.symm)
  have hsub : List.Sublist (l.filter p) (sortByKey k l) :=
    List.sublist_insertionSort hpair (List.filter_sublist l)
  have hsubf := List.Sublist.filter p hsub
  rw [List.filter_eq_self.mpr (fun a ha => (List.mem_filter.mp ha).2)] at hsubf
  have hperm : List.Perm ((sortByKey k l).filter p) (l.filter p) :=
    (List.perm_insertionSort (keyRel k) l).filter p
  exact (hsubf.eq_of_length hperm.length_eq.symm).symm

/-- C1: `getOrLoad(region, sortBy)` — the memoized
`get_all_ec2_instances_in_region` — returns the normalized fetch result
in source order when `sortBy` is absent or empty; when `sortBy` names a
record field it returns (and hence stores) that list already
stable-sorted ascending by the field's natural ordering: the result is a
permutation of the normalized list, sorted under `keyRel`, and elements
with equal sort-key value keep their source order. -/
theorem getOrLoad_sort_semantics (response : List Reservation) (s : String)
    (k : SortKey) (instances : List InstanceRecord) (v : FieldVal)
    (hnorm : normalizeAll (response.flatMap (fun r => r.Instances)) = some instances)
    (hk : keyOfString s = some k) :
    get_all_ec2_instances_in_region response none = some instances
    ∧ get_all_ec2_instances_in_region response (some "") = some instances
    ∧ get_all_ec2_instances_in_region response (some s) = some (sortByKey k instances)
    ∧ (sortByKey k instances).Perm instances
    ∧ List.Sorted (keyRel k) (sortByKey k instances)
    ∧ (sortByKey k instances).filter (fun x => keyVal k x == v) =
        instances.filter (fun x => keyVal k x == v) := by
  have hs : s ≠ "" := by
    intro h
    subst h
    simp [keyOfString] at hk
  refine ⟨?_, ?_, ?_, ?_, ?_, ?_⟩
  · simp [get_all_ec2_instances_in_region, hnorm, truthyStr]
  · simp [get_all_ec2_instances_in_region, hnorm, truthyStr]
  · simp [get_all_ec2_instances_in_region, hnorm, truthyStr, hs, hk]
  · exact List.perm_insertionSort (keyRel k) instances
  · exact List.sorted_insertionSort (keyRel k) instances
  · exact sortByKey_stable_filter k instances v

/-- Raw instances and normalized records used by the witnesses. -/
def sampleRawB : RawInstance :=
  ⟨some [⟨"Name", "B"⟩], "i-2", "t2.micro", "running", "eu-west-1a", none, [⟨"10.0.0.2"⟩]⟩

def sampleRawA : RawInstance :=
  ⟨some [⟨"Name", "A"⟩], "i-1", "t2.nano", "running", "eu-west-1b", some "1.2.3.4", []⟩

def sampleRecB : InstanceRecord :=
  ⟨"B", "i-2", "t2.micro", "running", "eu-west-1a", "N/A", ["10.0.0.2"]⟩

def sampleRecA : InstanceRecord :=
  ⟨"A", "i-1", "t2.nano", "running", "eu-west-1b", "1.2.3.4", []⟩

theorem getOrLoad_sort_semantics_witness :
    get_all_ec2_instances_in_region [⟨[sampleRawB, sampleRawA]⟩] none =
        some [sampleRecB, sampleRecA]
    ∧ get_all_ec2_instances_in_region [⟨[sampleRawB, sampleRawA]⟩] (some "") =
        some [sampleRecB, sampleRecA]
    ∧ get_all_ec2_instances_in_region [⟨[sampleRawB, sampleRawA]⟩] (some "Name") =
        some (sortByKey .name [sampleRecB, sampleRecA])
    ∧ (sortByKey .name [sampleRecB, sampleRecA]).Perm [sampleRecB, sampleRecA]
    ∧ List.Sorted (keyRel .name) (sortByKey .name [sampleRecB, sampleRecA])
    ∧ (sortByKey .name [sampleRecB, sampleRecA]).filter
          (fun x => keyVal .name x == .str "A") =
        [sampleRecB, sampleRecA].filter (fun x => keyVal .name x == .str "A") :=
  getOrLoad_sort_semantics [⟨[sampleRawB, sampleRawA]⟩] "Name" .name
    [sampleRecB, sampleRecA] (.str "A") (by decide) (by decide)

/-- C4: Validators run in the fixed order region → sortBy → pageSize and
the first failure is the only one reported: an invalid or missing region
yields the 400 `Invalid region name` error for every `sort_by` and
`page_size` (valid or not); with a valid region an invalid `sort_by`
wins over any `page_size`; and with valid region and `sort_by` a
non-positive `page_size` yields its own error. -/
theorem validation_short_circuit (valid_regions : List String)
    (response : List Reservation) (req : Request) (page psize psizeB psizeC : Int)
    (regionB regionC : String) (sortByB sortByC : Option String)
    (hreg : optMem req.region valid_regions = false)
    (hpg : parseIntArg req.page 1 = some page)
    (hps : parseIntArg req.page_size 5 = some psize)
    (hrB : optMem (some regionB) valid_regions = true)
    (hsB1 : optMem sortByB instance_tags = false)
    (hsB2 : truthyStr sortByB = true)
    (hrC : optMem (some regionC) valid_regions = true)
    (hsC : is_valid_sort_by sortByC = none)
    (hpC : psizeC ≤ 0) :
    check_parameters_validation valid_regions req.region req.sort_by psize =
        some (http_error INVALID_REGION_MESSAGE)
    ∧ get_request_ec2_instances valid_regions response req =
        .response 400 (.jsonError INVALID_REGION_MESSAGE)
    ∧ check_parameters_validation valid_regions (some regionB) sortByB psizeB =
        some (http_error INVALID_SORT_BY_MESSAGE)
    ∧ check_parameters_validation valid_regions (some regionC) sortByC psizeC =
        some (http_error INVALID_PAGE_SIZE) := by
  have h1 : check_parameters_validation valid_regions req.region req.sort_by psize =
      some (http_error INVALID_REGION_MESSAGE) := by
    simp [check_parameters_validation, is_valid_region, hreg]
  refine ⟨h1, ?_, ?_, ?_⟩
  · simp [get_request_ec2_instances, hpg, hps, h1, http_error]
  · simp [check_parameters_validation, is_valid_region, is_valid_sort_by, hrB, hsB1, hsB2]
  · simp [check_parameters_validation, is_valid_region, hrC, hsC, is_valid_page_size, hpC]

theorem validation_short_circuit_witness :
    check_parameters_validation ["eu-west-1"] (some "nowhere") (some "bogus") (-3) =
        some (http_error INVALID_REGION_MESSAGE)
    ∧ get_request_ec2_instances ["eu-west-1"] []
          ⟨some "nowhere", some "bogus", none, some "-3"⟩ =
        .response 400 (.jsonError INVALID_REGION_MESSAGE)
    ∧ check_parameters_validation ["eu-west-1"] (some "eu-west-1") (some "bogus") (-3) =
        some (http_error INVALID_SORT_BY_MESSAGE)
    ∧ check_parameters_validation ["eu-west-1"] (some "eu-west-1") (some "Name") (-3) =
        some (http_error INVALID_PAGE_SIZE) :=
  validation_short_circuit ["eu-west-1"] []
    ⟨some "nowhere", some "bogus", none, some "-3"⟩ 1 (-3) (-3) (-3)
    "eu-west-1" "eu-west-1" (some "bogus") (some "Name")
    (by decide) (by decide) (by decide) (by decide) (by decide) (by decide)
    (by decide) (by decide) (by decide)

/-- C5 counterexample: normalization is not total — on a raw record with
no `Tags` key, building `instance_details` fails
(`instance.get('Tags')[0]` raises), so the claim that the normalization
step never fails, including for records that carry no tags, is false. -/
theorem normalization_total_counterexample :
    instanceDetails
        ⟨none, "i-0", "t2.micro", "running", "eu-west-1a", some "1.2.3.4", [⟨"10.0.0.1"⟩]⟩ =
      none := rfl

/-- C5 (amended): for every raw record with at least one tag,
normalization succeeds and produces a record with all seven fields
present — `Name` is the first tag's value (regardless of tag key) and an
absent `PublicIP` becomes the sentinel `"N/A"`; but for a record whose
tag list is absent or empty, normalization fails (no absent-`Name`
sentinel exists in the code). -/
theorem normalization_first_tag (inst : RawInstance) (t : RawTag) (ts : List RawTag)
    (instB : RawInstance)
    (h : inst.Tags = some (t :: ts))
    (hB : instB.Tags = none ∨ instB.Tags = some []) :
    instanceDetails inst =
        some { Name := t.Value
               ID := inst.InstanceId
               Type' := inst.InstanceType
               State := inst.StateName
               AvailabilityZone := inst.AvailabilityZone
               PublicIP := inst.PublicIpAddress.getD "N/A"
               PrivateIPs := inst.NetworkInterfaces.map (fun ni => ni.PrivateIpAddress) }
    ∧ instanceDetails instB = none := by
  constructor
  · rw [instanceDetails, h]
  · rcases hB with hB | hB <;> rw [instanceDetails, hB]

theorem normalization_first_tag_witness :
    instanceDetails sampleRawB =
        some { Name := "B"
               ID := sampleRawB.InstanceId
               Type' := sampleRawB.InstanceType
               State := sampleRawB.StateName
               AvailabilityZone := sampleRawB.AvailabilityZone
               PublicIP := sampleRawB.PublicIpAddress.getD "N/A"
               PrivateIPs := sampleRawB.NetworkInterfaces.map (fun ni => ni.PrivateIpAddress) }
    ∧ instanceDetails ⟨some [], "i-3", "t", "stopped", "az", none, []⟩ = none :=
  normalization_first_tag sampleRawB ⟨"Name", "B"⟩ []
    ⟨some [], "i-3", "t", "stopped", "az", none, []⟩ (by decide) (Or.inr (by decide))

/-- C6: Success path: when `page`/`page_size` convert and region, sortBy
and pageSize all pass validation, the handler returns status 200 with
the JSON array of the fetched (cached) list sliced at
`(page, pageSize)`; in particular a valid region with zero instances and
default parameters yields 200 with body `[]`. -/
theorem success_path (valid_regions : List String) (response : List Reservation)
    (req : Request) (page psize : Int) (items : List InstanceRecord) (regionZ : String)
    (hpg : parseIntArg req.page 1 = some page)
    (hps : parseIntArg req.page_size 5 = some psize)
    (hval : check_parameters_validation valid_regions req.region req.sort_by psize = none)
    (hitems : get_all_ec2_instances_in_region response req.sort_by = some items)
    (hz : optMem (some regionZ) valid_regions = true) :
    get_request_ec2_instances valid_regions response req =
        .response 200 (.jsonList (slice items page psize))
    ∧ get_request_ec2_instances valid_regions [] ⟨some regionZ, none, none, none⟩ =
        .response 200 (.jsonList []) := by
  constructor
  · simp [get_request_ec2_instances, hpg, hps, hval, hitems, slice]
  · have hmem : regionZ ∈ valid_regions := (optMem_some_iff regionZ valid_regions).mp hz
    have hval0 : check_parameters_validation valid_regions (some regionZ) none 5 = none := by
      simp [check_parameters_validation, is_valid_region, hmem, is_valid_sort_by,
        optMem, truthyStr, is_valid_page_size]
    simp [get_request_ec2_instances, parseIntArg, hval0,
      get_all_ec2_instances_in_region, normalizeAll, truthyStr, pySlice, pyBound]

theorem success_path_witness :
    get_request_ec2_instances ["eu-west-1"] [⟨[sampleRawB, sampleRawA]⟩]
        ⟨some "eu-west-1", some "Name", some "2", some "1"⟩ =
      .response 200 (.jsonList (slice (sortByKey .name [sampleRecB, sampleRecA]) 2 1))
    ∧ get_request_ec2_instances ["eu-west-1"] [] ⟨some "eu-west-1", none, none, none⟩ =
      .response 200 (.jsonList []) :=
  success_path ["eu-west-1"] [⟨[sampleRawB, sampleRawA]⟩]
    ⟨some "eu-west-1", some "Name", some "2", some "1"⟩ 2 1
    (sortByKey .name [sampleRecB, sampleRecA]) "eu-west-1"
    (by decide) (by decide) (by decide) (by decide) (by decide)

/-- C7: `is_valid_sort_by` passes exactly for an absent or empty key
(no sort requested) or a member of the seven-attribute set, and fails for
every other key with a 400 error whose message lists the valid
attributes. -/
theorem sortBy_validation (k1 k2 : String)
    (h1 : k1 ∈ instance_tags) (h2 : k2 ∉ instance_tags) (h2e : k2 ≠ "") :
    is_valid_sort_by (some k1) = none
    ∧ is_valid_sort_by none = none
    ∧ is_valid_sort_by (some "") = none
    ∧ is_valid_sort_by (some k2) = some (http_error INVALID_SORT_BY_MESSAGE)
    ∧ (http_error INVALID_SORT_BY_MESSAGE).status = 400
    ∧ INVALID_SORT_BY_MESSAGE =
        "Invalid sort by attribute.\nValid attributes to short by are:" ++
          String.intercalate ", " instance_tags := by
  refine ⟨?_, by decide, by decide, ?_, rfl, rfl⟩
  · simp [is_valid_sort_by, optMem, h1]
  · simp [is_valid_sort_by, optMem, h2, truthyStr, h2e]

theorem sortBy_validation_witness :
    is_valid_sort_by (some "PrivateIPs") = none
    ∧ is_valid_sort_by none = none
    ∧ is_valid_sort_by (some "") = none
    ∧ is_valid_sort_by (some "name") = some (http_error INVALID_SORT_BY_MESSAGE)
    ∧ (http_error INVALID_SORT_BY_MESSAGE).status = 400
    ∧ INVALID_SORT_BY_MESSAGE =
        "Invalid sort by attribute.\nValid attributes to short by are:" ++
          String.intercalate ", " instance_tags :=
  sortBy_validation "PrivateIPs" "name" (by decide) (by decide) (by decide)

/-- C8: `is_valid_page_size` passes exactly for positive values and fails
for zero or negative ones with the 400 `Invalid page size` error; a
request without `page_size` behaves as one with `page_size=5`; and a
request that reaches the pageSize validator with a non-positive value is
answered 400 with that error body. -/
theorem pageSize_validation (n1 n2 : Int) (valid_regions : List String)
    (response : List Reservation) (req reqS : Request) (pageS : Int) (psStr : String)
    (h1 : 0 < n1) (h2 : n2 ≤ 0)
    (hreq : req.page_size = none)
    (hS1 : parseIntArg reqS.page 1 = some pageS)
    (hS2 : reqS.page_size = some psStr)
    (hS3 : pyIntParse psStr = some n2)
    (hS4 : optMem reqS.region valid_regions = true)
    (hS5 : is_valid_sort_by reqS.sort_by = none) :
    is_valid_page_size n1 = none
    ∧ is_valid_page_size n2 = some (http_error INVALID_PAGE_SIZE)
    ∧ INVALID_PAGE_SIZE = "Invalid page size.\nPage size must be positive numbers"
    ∧ (http_error INVALID_PAGE_SIZE).status = 400
    ∧ get_request_ec2_instances valid_regions response req =
        get_request_ec2_instances valid_regions response { req with page_size := some "5" }
    ∧ get_request_ec2_instances valid_regions response reqS =
        .response 400 (.jsonError INVALID_PAGE_SIZE) := by
  have hn2 : is_valid_page_size n2 = some (http_error INVALID_PAGE_SIZE) := by
    simp [is_valid_page_size, h2]
  refine ⟨?_, hn2, rfl, rfl, ?_, ?_⟩
  · simp [is_valid_page_size]
    omega
  · simp [get_request_ec2_instances, hreq, parseIntArg]
    rfl
  · have hchk : check_parameters_validation valid_regions reqS.region reqS.sort_by n2 =
        some (http_error INVALID_PAGE_SIZE) := by
      unfold check_parameters_validation is_valid_region
      rw [if_pos hS4, hS5, hn2]
    have hS2' : parseIntArg reqS.page_size 5 = some n2 := by
      rw [hS2]
      simpa [parseIntArg] using hS3
    simp [get_request_ec2_instances, hS1, hS2', hchk, http_error]

theorem pageSize_validation_witness :
    is_valid_page_size 5 = none
    ∧ is_valid_page_size 0 = some (http_error INVALID_PAGE_SIZE)
    ∧ INVALID_PAGE_SIZE = "Invalid page size.\nPage size must be positive numbers"
    ∧ (http_error INVALID_PAGE_SIZE).status = 400
    ∧ get_request_ec2_instances ["eu-west-1"] [] ⟨some "eu-west-1", none, none, none⟩ =
        get_request_ec2_instances ["eu-west-1"] []
          { (⟨some "eu-west-1", none, none, none⟩ : Request) with page_size := some "5" }
    ∧ get_request_ec2_instances ["eu-west-1"] [] ⟨some "eu-west-1", none, none, some "0"⟩ =
        .response 400 (.jsonError INVALID_PAGE_SIZE) :=
  pageSize_validation 5 0 ["eu-west-1"] [] ⟨some "eu-west-1", none, none, none⟩
    ⟨some "eu-west-1", none, none, some "0"⟩ 1 "0"
    (by decide) (by decide) (by decide) (by decide) (by decide) (by decide)
    (by decide) (by decide)

/-- C9: the `page` parameter is never validated: whenever the three
validated parameters pass and the fetch succeeds, the handler answers
200 for every integer `page` — including zero and negative values;
`page = 0` always slices to the empty list, while a negative page
produces a segment counted from the end of the list: `page = -1` with
`pageSize = 1` on a list with at least two elements returns exactly the
second-to-last element rather than a clipped prefix range. -/
theorem page_not_validated (valid_regions : List String) (response : List Reservation)
    (req : Request) (page psize : Int) (items M : List InstanceRecord)
    (hpg : parseIntArg req.page 1 = some page)
    (hps : parseIntArg req.page_size 5 = some psize)
    (hval : check_parameters_validation valid_regions req.region req.sort_by psize = none)
    (hitems : get_all_ec2_instances_in_region response req.sort_by = some items)
    (hM : 2 ≤ M.length) :
    get_request_ec2_instances valid_regions response req =
        .response 200 (.jsonList (slice items page psize))
    ∧ slice items 0 psize = []
    ∧ slice M (-1) 1 = (M.drop (M.length - 2)).take 1 := by
  refine ⟨?_, ?_, ?_⟩
  · simp [get_request_ec2_instances, hpg, hps, hval, hitems, slice]
  · have h0 : ((0 : Int) - 1) * psize + psize = 0 := by ring
    unfold slice
    rw [h0]
    unfold pySlice
    have hb : pyBound items.length 0 = 0 := by
      simp [pyBound]
    rw [hb]
    simp
  · unfold slice pySlice
    have e1 : ((-1 : Int) - 1) * 1 = -2 := by ring
    rw [e1]
    have e2 : (-2 : Int) + 1 = -1 := by ring
    rw [e2]
    have hb1 : pyBound M.length (-2) = M.length - 2 := by
      unfold pyBound
      rw [if_pos (by omega)]
      omega
    have hb2 : pyBound M.length (-1) = M.length - 1 := by
      unfold pyBound
      rw [if_pos (by omega)]
      omega
    rw [hb1, hb2]
    congr 1
    omega

theorem page_not_validated_witness :
    get_request_ec2_instances ["eu-west-1"] [⟨[sampleRawB, sampleRawA]⟩]
        ⟨some "eu-west-1", none, some "-1", some "1"⟩ =
      .response 200 (.jsonList (slice [sampleRecB, sampleRecA] (-1) 1))
    ∧ slice [sampleRecB, sampleRecA] 0 1 = []
    ∧ slice [sampleRecB, sampleRecA] (-1) 1 =
        ([sampleRecB, sampleRecA].drop ([sampleRecB, sampleRecA].length - 2)).take 1 :=
  page_not_validated ["eu-west-1"] [⟨[sampleRawB, sampleRawA]⟩]
    ⟨some "eu-west-1", none, some "-1", some "1"⟩ (-1) 1
    [sampleRecB, sampleRecA] [sampleRecB, sampleRecA]
    (by decide) (by decide) (by decide) (by decide) (by decide)

/-- C10: a present `page` or `page_size` value that is not a decimal
integer string makes the `int()` conversion raise before any validation
runs, so the request produces no HTTP response at all — neither a 200
nor a 400 validation error. -/
theorem non_numeric_params_escape (valid_regions : List String)
    (response : List Reservation) (req reqB : Request) (s sB : String) (pageB : Int)
    (hA1 : req.page = some s) (hA2 : pyIntParse s = none)
    (hB1 : parseIntArg reqB.page 1 = some pageB)
    (hB2 : reqB.page_size = some sB) (hB3 : pyIntParse sB = none) :
    get_request_ec2_instances valid_regions response req = .uncaughtException
    ∧ (get_request_ec2_instances valid_regions response req).isHttpResponse = false
    ∧ get_request_ec2_instances valid_regions response reqB = .uncaughtException
    ∧ (get_request_ec2_instances valid_regions response reqB).isHttpResponse = false := by
  have h1 : get_request_ec2_instances valid_regions response req = .uncaughtException := by
    simp [get_request_ec2_instances, parseIntArg, hA1, hA2]
  have h2 : get_request_ec2_instances valid_regions response reqB = .uncaughtException := by
    have hB2' : parseIntArg reqB.page_size 5 = none := by
      rw [hB2]
      simpa [parseIntArg] using hB3
    simp [get_request_ec2_instances, hB1, hB2']
  exact ⟨h1, by rw [h1]; rfl, h2, by rw [h2]; rfl⟩

theorem non_numeric_params_escape_witness :
    get_request_ec2_instances ["eu-west-1"] []
        ⟨some "eu-west-1", none, some "abc", none⟩ = .uncaughtException
    ∧ (get_request_ec2_instances ["eu-west-1"] []
        ⟨some "eu-west-1", none, some "abc", none⟩).isHttpResponse = false
    ∧ get_request_ec2_instances ["eu-west-1"] []
        ⟨some "nowhere", none, none, some "3.5"⟩ = .uncaughtException
    ∧ (get_request_ec2_instances ["eu-west-1"] []
        ⟨some "nowhere", none, none, some "3.5"⟩).isHttpResponse = false :=
  non_numeric_params_escape ["eu-west-1"] []
    ⟨some "eu-west-1", none, some "abc", none⟩
    ⟨some "nowhere", none, none, some "3.5"⟩ "abc" "3.5" 1
    (by decide) (by decide) (by decide) (by decide) (by decide)

end EC2
